import Mathlib

/-!
# Verification of the Concourse step-execution engine specification

This development embeds, in Lean 4, the parts of the Concourse ATC step
execution engine that the specification's claims are about:

* the `Try` / suppress combinator (`DoNotStep.Run`, translated directly from
  `atc/exec/do_not_step.go`);
* the resource-fetch (`Get`) step;
* the variable-load (`LoadVar`) step.

The `Get` and `LoadVar` step implementations are not among the provided
sources (only their test suites are), so those two steps are modelled from
the specification's §4.1 and §4.2 algorithms; each such definition carries a
doc comment starting with `Modelled from the spec:`.  The `DoNotStep`
combinator is translated from the actual Go source.

Go's two-channel step result `(ok bool, err error)` is embedded as
`Bool × Option GoError`, where `GoError` models Go error values together
with `fmt.Errorf("...: %w", err)` wrapping, so that `errors.Is` against the
sentinel errors `context.Canceled` and `context.DeadlineExceeded` is
expressible as a chain search.
-/

/-- A Go error value: the two `context` sentinel errors, a plain
`errors.New` / `fmt.Errorf` message error, or a wrapping error produced by
`fmt.Errorf("msg: %w", inner)`. -/
inductive GoError where
  | canceled : GoError
  | deadlineExceeded : GoError
  | msg : String → GoError
  | wrap : String → GoError → GoError
deriving Repr, DecidableEq

/-- The rendered `Error()` string of a `GoError`; wrapping errors render as
`"outer: inner"` the way `fmt.Errorf("outer: %w", inner)` does. -/
def GoError.message : GoError → String
  | .canceled => "context canceled"
  | .deadlineExceeded => "context deadline exceeded"
  | .msg s => s
  | .wrap s inner => s ++ ": " ++ inner.message

/-- `errors.Is(e, context.Canceled)`: true iff `context.Canceled` occurs in
the error's unwrap chain. -/
def GoError.isCanceled : GoError → Bool
  | .canceled => true
  | .wrap _ inner => inner.isCanceled
  | _ => false

/-- `errors.Is(e, context.DeadlineExceeded)`: true iff
`context.DeadlineExceeded` occurs in the error's unwrap chain. -/
def GoError.isDeadlineExceeded : GoError → Bool
  | .deadlineExceeded => true
  | .wrap _ inner => inner.isDeadlineExceeded
  | _ => false

/-- `errors.Is(err, context.Canceled)` on a possibly-nil Go error
(`errors.Is(nil, target)` is `false` for non-nil targets). -/
def goErrorsIsCanceled : Option GoError → Bool
  | none => false
  | some e => e.isCanceled

/-- `DoNotStep.Run` from `atc/exec/do_not_step.go`: runs the nested step
(whose result is the argument), propagates the nested error unchanged when
`errors.Is(err, context.Canceled)`, and otherwise returns `(true, nil)`.

```go
func (ts *DoNotStep) Run(ctx context.Context, state RunState) (bool, error) {
	_, err := ts.step.Run(ctx, state)
	if errors.Is(err, context.Canceled) {
		// propagate aborts errors, but not timeouts
		return false, err
	}

	return true, nil
}
```
-/
def DoNotStep.run (nestedResult : Bool × Option GoError) : Bool × Option GoError :=
  if goErrorsIsCanceled nestedResult.2 then
    (false, nestedResult.2)
  else
    (true, none)

/-- In a chain-structured error the base sentinel is unique: an error whose
chain reaches `context.Canceled` never also reaches
`context.DeadlineExceeded`. -/
theorem GoError.isCanceled_not_isDeadlineExceeded (e : GoError) :
    e.isCanceled = true → e.isDeadlineExceeded = false := by
  induction e with
  | canceled => intro _; rfl
  | deadlineExceeded => intro h; simp [GoError.isCanceled] at h
  | msg s => intro h; simp [GoError.isCanceled] at h
  | wrap s inner ih =>
      intro h
      simpa [GoError.isCanceled, GoError.isDeadlineExceeded] using
        ih (by simpa [GoError.isCanceled] using h)

/-- C1: the Try/suppress combinator returns `(true, nil)` whenever the
nested step returned a failed outcome (`err = nil`, any `ok`) or a
non-cancellation error, and whenever the nested error is a cancellation
error it is returned unchanged rather than suppressed. -/
theorem doNotStep_suppresses_failure_and_propagates_cancel
    (nestedOk : Bool) (nestedErr : Option GoError) :
    ((nestedErr = none ∨ ∃ e, nestedErr = some e ∧ e.isCanceled = false) →
      DoNotStep.run (nestedOk, nestedErr) = (true, none)) ∧
    (∀ e, nestedErr = some e → e.isCanceled = true →
      (DoNotStep.run (nestedOk, nestedErr)).2 = some e) := by
  constructor
  · rintro (rfl | ⟨e, rfl, he⟩)
    · rfl
    · simp [DoNotStep.run, goErrorsIsCanceled, he]
  · rintro e rfl he
    simp [DoNotStep.run, goErrorsIsCanceled, he]

/-- Witness for C1: a concrete failed outcome is suppressed to
`(true, nil)`, and a concrete wrapped cancellation error comes back
unchanged. -/
theorem doNotStep_suppresses_failure_and_propagates_cancel_witness :
    DoNotStep.run (false, none) = (true, none) ∧
    (DoNotStep.run (true, some (.wrap "wrapped" .canceled))).2 =
      some (.wrap "wrapped" .canceled) := by
  refine ⟨?_, ?_⟩
  · exact (doNotStep_suppresses_failure_and_propagates_cancel false none).1
      (Or.inl rfl)
  · exact (doNotStep_suppresses_failure_and_propagates_cancel true
      (some (.wrap "wrapped" .canceled))).2 (.wrap "wrapped" .canceled) rfl rfl

/-- C10: the combinator propagates a nested error iff the error's unwrap
chain contains `context.Canceled` (the `errors.Is` test), so a mere wrap of
`context.Canceled` still propagates while `context.DeadlineExceeded` and
every other error are suppressed; and whenever it propagates, `ok` is
`false`. -/
theorem doNotStep_propagates_iff_chain_canceled (nestedOk : Bool) (e : GoError) :
    ((DoNotStep.run (nestedOk, some e)).2 = some e ↔ e.isCanceled = true) ∧
    (e.isCanceled = true →
      DoNotStep.run (nestedOk, some e) = (false, some e)) ∧
    (∀ s, DoNotStep.run (nestedOk, some (.wrap s .canceled)) =
      (false, some (.wrap s .canceled))) ∧
    DoNotStep.run (nestedOk, some .deadlineExceeded) = (true, none) := by
  refine ⟨?_, ?_, ?_, ?_⟩
  · constructor
    · intro h
      by_contra hc
      rw [Bool.not_eq_true] at hc
      simp [DoNotStep.run, goErrorsIsCanceled, hc] at h
    · intro h
      simp [DoNotStep.run, goErrorsIsCanceled, h]
  · intro h
    simp [DoNotStep.run, goErrorsIsCanceled, h]
  · intro s
    simp [DoNotStep.run, goErrorsIsCanceled, GoError.isCanceled]
  · rfl

/-- Witness for C10: instantiated at a wrapped cancellation and at
`context.DeadlineExceeded`. -/
theorem doNotStep_propagates_iff_chain_canceled_witness :
    DoNotStep.run (true, some (.wrap "ctx" .canceled)) =
      (false, some (.wrap "ctx" .canceled)) ∧
    DoNotStep.run (true, some .deadlineExceeded) = (true, none) := by
  refine ⟨?_, ?_⟩
  · exact (doNotStep_propagates_iff_chain_canceled true
      (.wrap "ctx" .canceled)).2.1 rfl
  · exact (doNotStep_propagates_iff_chain_canceled true .deadlineExceeded).2.2.2

/-!
## Data model for the resource-fetch (Get) step

The Get step implementation is not among the provided sources (only its test
suite is), so the definitions below are modelled from the specification,
§3 (data model) and §4.1 (algorithm).
-/

/-- An association list from string keys to string values, embedding Go's
`map[string]string` (`atc.Source`, `atc.Params`, `atc.Version`). -/
abbrev StrMap := List (String × String)

/-- Modelled from the spec: interpolation of one `((var))` placeholder value
against Variables; a value that is not a single placeholder, or whose
variable is not bound, is left unchanged. -/
def interpolateValue (vars : StrMap) (v : String) : String :=
  let cs := v.toList
  if ['(', '('].isPrefixOf cs && [')', ')'].isPrefixOf cs.reverse then
    match vars.lookup (String.mk ((cs.drop 2).dropLast.dropLast)) with
    | some x => x
    | none => v
  else v

/-- Interpolate every value of a source/params map against Variables. -/
def interpolateMap (vars : StrMap) (m : StrMap) : StrMap :=
  m.map (fun kv => (kv.1, interpolateValue vars kv.2))

/-- `atc.ResourceType`: one entry of the resource-type chain. -/
structure ResourceType where
  name : String
  type : String
  source : StrMap
  params : StrMap
  privileged : Bool
  tags : List String
deriving Repr, DecidableEq

/-- `atc.VersionedResourceType`: a chain entry together with its pinned
version. -/
structure VersionedResourceType where
  resourceType : ResourceType
  version : StrMap
deriving Repr, DecidableEq

/-- `VersionedResourceTypes.Lookup`: find the chain entry with the given
name. -/
def lookupType (types : List VersionedResourceType) (name : String) :
    Option VersionedResourceType :=
  types.find? (fun t => t.resourceType.name == name)

/-- `VersionedResourceTypes.Without`: the chain with the named entry
excluded. -/
def withoutType (types : List VersionedResourceType) (name : String) :
    List VersionedResourceType :=
  types.filter (fun t => t.resourceType.name != name)

/-- `atc.GetPlan`: the compiler-produced description of one Get step.  An
absent timeout is the empty string, an anonymous resource is the empty
string. -/
structure GetPlan where
  name : String
  type : String
  resource : String
  source : StrMap
  params : StrMap
  version : Option StrMap
  tags : List String
  timeout : String
  versionedResourceTypes : List VersionedResourceType
deriving Repr, DecidableEq

/-- One step of the recursive base-type walk, with explicit fuel (the Go
loop would diverge on a cyclic chain; a well-formed chain bottoms out after
at most `types.length` lookups). -/
def baseTypeAux : Nat → List VersionedResourceType → String → String
  | 0, _, name => name
  | fuel + 1, types, name =>
      match lookupType types name with
      | some t => baseTypeAux fuel types t.resourceType.type
      | none => name

/-- Modelled from the spec: resolve the effective base type — if the name
names an entry of the resource-type chain, recursively walk the chain to the
bottom-most entry whose type is not itself custom; otherwise the name itself
is the base type (spec §4.1 item 2). -/
def resolveBaseType (types : List VersionedResourceType) (name : String) : String :=
  baseTypeAux (types.length + 1) types name

/-- Modelled from the spec: tag selection — if the step's declared type is
custom, the type's own tag list, if non-empty, overrides the step's tag
list; otherwise the step's own tags are used (spec §4.1 item 3, §3
WorkerSpec invariant). -/
def resolveTags (plan : GetPlan) : List String :=
  match lookupType plan.versionedResourceTypes plan.type with
  | some t =>
      if t.resourceType.tags.isEmpty then plan.tags else t.resourceType.tags
  | none => plan.tags

/-- The key handed to `ResourceCacheFactory.FindOrCreateResourceCache`; the
cache handle is content-addressed, so the model identifies the handle with
its key. -/
structure ResourceCacheKey where
  type : String
  version : Option StrMap
  source : StrMap
  params : StrMap
  types : List VersionedResourceType
deriving Repr, DecidableEq

/-- Modelled from the spec: the resource-type chain as used for the cache
key — each chain link's `source` interpolated, each link's `params` left
verbatim with their placeholders (spec §4.1 item 1, §9 design note). -/
def interpolateChain (vars : StrMap) (types : List VersionedResourceType) :
    List VersionedResourceType :=
  types.map (fun t =>
    { t with resourceType :=
      { t.resourceType with source := interpolateMap vars t.resourceType.source } })

/-- Modelled from the spec: the cache key is derived from the resolved base
type, the declared version, the step's interpolated source and params, and
the interpolated chain (spec §3 ResourceCache handle, §4.1 item 1). -/
def getCacheKey (vars : StrMap) (plan : GetPlan) : ResourceCacheKey :=
  { type := resolveBaseType plan.versionedResourceTypes plan.type
    version := plan.version
    source := interpolateMap vars plan.source
    params := interpolateMap vars plan.params
    types := interpolateChain vars plan.versionedResourceTypes }

/-- `worker.Spec`: what `Pool.FindOrSelectWorker` receives. -/
structure WorkerSpec where
  resourceType : String
  teamID : Int
  tags : List String
deriving Repr, DecidableEq

/-- `atc.ImageResource`: the image descriptor handed to
`Delegate.FetchImage`. -/
structure ImageResource where
  name : String
  type : String
  source : StrMap
  params : StrMap
  version : StrMap
  tags : List String
deriving Repr, DecidableEq

/-- The arguments of one `Delegate.FetchImage` call. -/
structure FetchImageCall where
  imageResource : ImageResource
  types : List VersionedResourceType
  privileged : Bool
deriving Repr, DecidableEq

/-- Modelled from the spec: image resolution for a custom type — the custom
type's own descriptor (name/type/source/params/version, with the resolved
tags), the remaining chain with that entry excluded, and its privileged
flag (spec §4.1 items 3 and 5). -/
def fetchImageCall (plan : GetPlan) (t : VersionedResourceType) : FetchImageCall :=
  { imageResource :=
      { name := t.resourceType.name
        type := t.resourceType.type
        source := t.resourceType.source
        params := t.resourceType.params
        version := t.version
        tags := resolveTags plan }
    types := withoutType plan.versionedResourceTypes t.resourceType.name
    privileged := t.resourceType.privileged }

/-- The nanosecond multiplier of a Go duration unit suffix. -/
def durationUnitNanos : String → Option Nat
  | "ns" => some 1
  | "us" => some 1000
  | "ms" => some 1000000
  | "s" => some 1000000000
  | "m" => some 60000000000
  | "h" => some 3600000000000
  | _ => none

/-- Read a leading decimal number from a character list; fails when no digit
is present. -/
def readNat (cs : List Char) : Option (Nat × List Char) :=
  let ds := cs.takeWhile Char.isDigit
  if ds.isEmpty then none
  else some (ds.foldl (fun n c => n * 10 + (c.toNat - 48)) 0,
    cs.dropWhile Char.isDigit)

/-- Read a leading unit suffix (the maximal run of non-digits) and return
its nanosecond multiplier; fails on an unknown or missing unit. -/
def readUnit (cs : List Char) : Option (Nat × List Char) :=
  match durationUnitNanos (String.mk (cs.takeWhile (fun c => !c.isDigit))) with
  | some mult => some (mult, cs.dropWhile (fun c => !c.isDigit))
  | none => none

/-- Fuel-bounded sequence of number-unit components. -/
def parseDurationAux : Nat → List Char → Option Nat
  | _, [] => some 0
  | 0, _ => none
  | fuel + 1, cs => do
      let (n, cs₁) ← readNat cs
      let (mult, cs₂) ← readUnit cs₁
      let rest ← parseDurationAux fuel cs₂
      pure (n * mult + rest)

/-- Modelled from the spec: Go's `time.ParseDuration` restricted to unsigned
integer components with the standard unit suffixes (`ns`, `us`, `ms`, `s`,
`m`, `h`), e.g. `"1ms"` or `"1h30m"`; `"0"` is the only unitless duration.
Returns nanoseconds, or `none` for an unparseable string. -/
def goParseDuration (s : String) : Option Nat :=
  if s = "0" then some 0
  else if s = "" then none
  else parseDurationAux s.length s.toList

/-- The fixed "timed out" message carried by the "errored" event when a
step-local timeout elapses (spec §4.1 item 7). -/
def timeoutLogMessage : String := "timed out"

/-- The step metadata the Get step consumes (only the team ID is observable
in the claims). -/
structure StepMetadata where
  teamID : Int
deriving Repr, DecidableEq

/-- `resource.VersionResult`: the decoded version/metadata payload exchanged
with the fetch subprocess. -/
structure VersionResult where
  version : StrMap
  metadata : List (String × String)
deriving Repr, DecidableEq

/-- The zero value of `resource.VersionResult`. -/
def VersionResult.zero : VersionResult :=
  { version := [], metadata := [] }

/-- What the fetch subprocess does once started: completes with an exit
status and (for exit 0) a decoded payload, or the process run returns an
error — a launch/runtime failure, a build-abort cancellation (an error whose
chain contains `context.Canceled`), or a step-timeout expiry (an error whose
chain contains `context.DeadlineExceeded`). -/
inductive ProcessBehavior where
  | completes : Nat → VersionResult → ProcessBehavior
  | fails : GoError → ProcessBehavior
deriving Repr, DecidableEq

/-- The external collaborators' behavior during one Get-step run: the
outcome of worker selection, the container's primary mount volume, and the
subprocess behavior. -/
structure GetEnv where
  selectWorkerError : Option GoError
  volume : String
  behavior : ProcessBehavior
deriving Repr, DecidableEq

/-- The observable trace of one Get-step run: every externally visible call
and event, the stored result, and the step's `(ok, err)` outcome. -/
structure GetTrace where
  cacheKey : Option ResourceCacheKey
  workerSpec : Option WorkerSpec
  selectedWorker : Bool
  fetchImage : Option FetchImageCall
  artifacts : List (String × String)
  result : Option ResourceCacheKey
  updateVersions : List (String × VersionResult)
  finished : List (Nat × VersionResult)
  errored : List String
  ok : Bool
  err : Option GoError
deriving Repr, DecidableEq

/-- Modelled from the spec: one run of the Get step (spec §4.1, whose
implementation is not among the sources).  In order: parse the timeout (an
unparseable string is a fatal `parse timeout: <cause>` error and no
container work starts, §4.1 item 7 and §8); derive the cache key (item 1)
and the worker spec (items 2-3); select a worker (item 4, failure surfaces
verbatim); fetch the custom type's image when the declared type is custom
(item 5); run the fetch subprocess (item 8) — a run cut short by the
step-local deadline is a failed outcome with one "errored" event carrying
the fixed timed-out message, any other process error propagates (items 7
and 11), exit 0 registers the primary mount under the plan's name, stores
the cache handle as the plan's result, persists the version iff the plan
names a concrete resource and emits "finished" with the payload (item 9),
and a non-zero exit emits "finished" with that status and a zero payload
(item 10). -/
def runGetStep (vars : StrMap) (md : StepMetadata) (plan : GetPlan)
    (env : GetEnv) : GetTrace :=
  if plan.timeout ≠ "" ∧ goParseDuration plan.timeout = none then
    { cacheKey := none, workerSpec := none, selectedWorker := false,
      fetchImage := none, artifacts := [], result := none,
      updateVersions := [], finished := [], errored := [], ok := false,
      err := some (.wrap "parse timeout"
        (.msg ("time: invalid duration \"" ++ plan.timeout ++ "\""))) }
  else
    let key := getCacheKey vars plan
    let wspec : WorkerSpec :=
      { resourceType := resolveBaseType plan.versionedResourceTypes plan.type
        teamID := md.teamID
        tags := resolveTags plan }
    match env.selectWorkerError with
    | some e =>
        { cacheKey := some key, workerSpec := some wspec,
          selectedWorker := false, fetchImage := none, artifacts := [],
          result := none, updateVersions := [], finished := [], errored := [],
          ok := false, err := some e }
    | none =>
        let fi := (lookupType plan.versionedResourceTypes plan.type).map
          (fetchImageCall plan)
        match env.behavior with
        | .fails e =>
            if e.isDeadlineExceeded then
              { cacheKey := some key, workerSpec := some wspec,
                selectedWorker := true, fetchImage := fi, artifacts := [],
                result := none, updateVersions := [], finished := [],
                errored := [timeoutLogMessage], ok := false, err := none }
            else
              { cacheKey := some key, workerSpec := some wspec,
                selectedWorker := true, fetchImage := fi, artifacts := [],
                result := none, updateVersions := [], finished := [],
                errored := [], ok := false, err := some e }
        | .completes status payload =>
            if status = 0 then
              { cacheKey := some key, workerSpec := some wspec,
                selectedWorker := true, fetchImage := fi,
                artifacts := [(plan.name, env.volume)],
                result := some key,
                updateVersions :=
                  if plan.resource = "" then [] else [(plan.resource, payload)],
                finished := [(0, payload)], errored := [], ok := true,
                err := none }
            else
              { cacheKey := some key, workerSpec := some wspec,
                selectedWorker := true, fetchImage := fi, artifacts := [],
                result := none, updateVersions := [],
                finished := [(status, VersionResult.zero)], errored := [],
                ok := false, err := none }

/-!
## Concrete fixture (mirrors the GetStep test suite's plan)
-/

/-- The Variables of the test fixture. -/
def sampleVars : StrMap :=
  [("source-var", "super-secret-source"), ("params-var", "super-secret-params")]

/-- The first chain entry of the test fixture. -/
def sampleRT1 : VersionedResourceType :=
  { resourceType :=
      { name := "some-custom-type"
        type := "another-custom-type"
        source := [("some-custom", "((source-var))")]
        params := [("some-custom", "((params-var))")]
        privileged := false
        tags := [] }
    version := [("some-custom", "version")] }

/-- The second chain entry of the test fixture. -/
def sampleRT2 : VersionedResourceType :=
  { resourceType :=
      { name := "another-custom-type"
        type := "registry-image"
        source := [("another-custom", "((source-var))")]
        params := []
        privileged := true
        tags := [] }
    version := [("another-custom", "version")] }

/-- The resource-type chain of the test fixture. -/
def sampleTypes : List VersionedResourceType := [sampleRT1, sampleRT2]

/-- The Get plan of the test fixture. -/
def samplePlan : GetPlan :=
  { name := "some-name"
    type := "some-base-type"
    resource := ""
    source := [("some", "((source-var))")]
    params := [("some", "((params-var))")]
    version := some [("some", "version")]
    tags := []
    timeout := ""
    versionedResourceTypes := sampleTypes }

/-- The subprocess payload of the test fixture. -/
def samplePayload : VersionResult :=
  { version := [("some", "version")], metadata := [("some", "metadata")] }

/-- A benign environment: worker selection succeeds, the container's primary
mount is `get-volume`, the subprocess exits 0 with the payload. -/
def sampleEnv : GetEnv :=
  { selectWorkerError := none, volume := "get-volume",
    behavior := .completes 0 samplePayload }

/-!
## Claims about the Get step
-/

/-- C2: the key passed to `ResourceCacheFactory.FindOrCreateResourceCache`
consists of the resolved base type, the declared version, the step's source
and params both interpolated against Variables, and the resource-type chain
in which each link's source is interpolated but each link's params are kept
verbatim with their placeholders. -/
theorem getStep_cacheKey_characterization (vars : StrMap) (md : StepMetadata)
    (plan : GetPlan) (env : GetEnv)
    (hto : plan.timeout = "" ∨ goParseDuration plan.timeout ≠ none) :
    (runGetStep vars md plan env).cacheKey =
      some
        { type := resolveBaseType plan.versionedResourceTypes plan.type
          version := plan.version
          source := plan.source.map (fun kv => (kv.1, interpolateValue vars kv.2))
          params := plan.params.map (fun kv => (kv.1, interpolateValue vars kv.2))
          types := plan.versionedResourceTypes.map (fun t =>
            { t with resourceType :=
              { t.resourceType with
                  source := t.resourceType.source.map
                    (fun kv => (kv.1, interpolateValue vars kv.2)) } }) } := by
  have hcond : ¬(plan.timeout ≠ "" ∧ goParseDuration plan.timeout = none) := by
    rcases hto with h | h
    · intro hc; exact hc.1 h
    · intro hc; exact h hc.2
  rcases env with ⟨swe, vol, beh⟩
  unfold runGetStep
  rw [if_neg hcond]
  cases swe <;> cases beh <;>
    simp [getCacheKey, interpolateMap, interpolateChain] <;>
    split <;> simp [getCacheKey, interpolateMap, interpolateChain]

/-- Witness for C2, at the test fixture: the key carries the interpolated
step source/params, and the chain keeps `((params-var))` verbatim inside the
first link while that link's source is interpolated. -/
theorem getStep_cacheKey_characterization_witness :
    (runGetStep sampleVars ⟨123⟩ samplePlan sampleEnv).cacheKey =
      some
        { type := "some-base-type"
          version := some [("some", "version")]
          source := [("some", "super-secret-source")]
          params := [("some", "super-secret-params")]
          types :=
            [{ resourceType :=
                 { name := "some-custom-type"
                   type := "another-custom-type"
                   source := [("some-custom", "super-secret-source")]
                   params := [("some-custom", "((params-var))")]
                   privileged := false
                   tags := [] }
               version := [("some-custom", "version")] },
             { resourceType :=
                 { name := "another-custom-type"
                   type := "registry-image"
                   source := [("another-custom", "super-secret-source")]
                   params := []
                   privileged := true
                   tags := [] }
               version := [("another-custom", "version")] }] } := by
  have h := getStep_cacheKey_characterization sampleVars ⟨123⟩ samplePlan
    sampleEnv (Or.inl rfl)
  rw [h]
  decide

/-- Helper: whenever the timeout parses and worker selection succeeds, the
trace's worker spec and image-fetch call are the ones derived from the plan
(shared by the tag and base-type claims). -/
theorem runGetStep_components (vars : StrMap) (md : StepMetadata)
    (plan : GetPlan) (env : GetEnv)
    (hto : ¬(plan.timeout ≠ "" ∧ goParseDuration plan.timeout = none))
    (hw : env.selectWorkerError = none) :
    (runGetStep vars md plan env).workerSpec =
      some
        { resourceType := resolveBaseType plan.versionedResourceTypes plan.type
          teamID := md.teamID
          tags := resolveTags plan } ∧
    (runGetStep vars md plan env).fetchImage =
      (lookupType plan.versionedResourceTypes plan.type).map
        (fetchImageCall plan) := by
  unfold runGetStep
  rw [if_neg hto, hw]
  cases hbeh : env.behavior with
  | completes status payload =>
      by_cases h0 : status = 0 <;> simp [h0]
  | fails e =>
      by_cases hdl : e.isDeadlineExceeded = true <;> simp [hdl]

/-- C3: an unparseable timeout string is a fatal `parse timeout: <cause>`
error and nothing else happens; an elapsed valid timeout during subprocess
execution is a failed outcome `(false, nil)` with exactly one "errored"
event carrying the fixed timed-out message; an external cancellation in the
same window propagates as a real error. -/
theorem getStep_timeout_semantics (vars : StrMap) (md : StepMetadata)
    (plan : GetPlan) (env : GetEnv) :
    (plan.timeout ≠ "" → goParseDuration plan.timeout = none →
      (runGetStep vars md plan env).err =
        some (.wrap "parse timeout"
          (.msg ("time: invalid duration \"" ++ plan.timeout ++ "\""))) ∧
      (runGetStep vars md plan env).err.map GoError.message =
        some ("parse timeout" ++ ": " ++
          ("time: invalid duration \"" ++ plan.timeout ++ "\"")) ∧
      (runGetStep vars md plan env).selectedWorker = false ∧
      (runGetStep vars md plan env).finished = [] ∧
      (runGetStep vars md plan env).errored = [] ∧
      (runGetStep vars md plan env).artifacts = [] ∧
      (runGetStep vars md plan env).result = none) ∧
    (∀ d e, goParseDuration plan.timeout = some d →
      env.selectWorkerError = none →
      env.behavior = .fails e → e.isDeadlineExceeded = true →
      (runGetStep vars md plan env).ok = false ∧
      (runGetStep vars md plan env).err = none ∧
      (runGetStep vars md plan env).errored = [timeoutLogMessage]) ∧
    (∀ d e, goParseDuration plan.timeout = some d →
      env.selectWorkerError = none →
      env.behavior = .fails e → e.isCanceled = true →
      (runGetStep vars md plan env).ok = false ∧
      (runGetStep vars md plan env).err = some e) := by
  refine ⟨?_, ?_, ?_⟩
  · intro h1 h2
    unfold runGetStep
    rw [if_pos ⟨h1, h2⟩]
    exact ⟨rfl, rfl, rfl, rfl, rfl, rfl, rfl⟩
  · intro d e hd hw hb hdl
    have hcond : ¬(plan.timeout ≠ "" ∧ goParseDuration plan.timeout = none) := by
      intro hc; rw [hd] at hc; exact Option.noConfusion hc.2
    unfold runGetStep
    rw [if_neg hcond, hw, hb]
    simp [hdl]
  · intro d e hd hw hb hc
    have hcond : ¬(plan.timeout ≠ "" ∧ goParseDuration plan.timeout = none) := by
      intro hcc; rw [hd] at hcc; exact Option.noConfusion hcc.2
    have hnd := GoError.isCanceled_not_isDeadlineExceeded e hc
    unfold runGetStep
    rw [if_neg hcond, hw, hb]
    simp [hnd]

/-- Witness for C3: `"bogus"` yields the fatal parse-timeout message with no
events; with timeout `"1ms"`, a deadline-exceeded run gives the single
timed-out "errored" event, while a wrapped cancellation propagates. -/
theorem getStep_timeout_semantics_witness :
    (runGetStep sampleVars ⟨123⟩ { samplePlan with timeout := "bogus" }
        sampleEnv).err.map GoError.message =
      some "parse timeout: time: invalid duration \"bogus\"" ∧
    ((runGetStep sampleVars ⟨123⟩ { samplePlan with timeout := "1ms" }
        { sampleEnv with
            behavior := .fails (.wrap "wrapped" .deadlineExceeded) }).ok = false ∧
      (runGetStep sampleVars ⟨123⟩ { samplePlan with timeout := "1ms" }
        { sampleEnv with
            behavior := .fails (.wrap "wrapped" .deadlineExceeded) }).err = none ∧
      (runGetStep sampleVars ⟨123⟩ { samplePlan with timeout := "1ms" }
        { sampleEnv with
            behavior := .fails (.wrap "wrapped" .deadlineExceeded) }).errored =
        [timeoutLogMessage]) ∧
    (runGetStep sampleVars ⟨123⟩ { samplePlan with timeout := "1ms" }
        { sampleEnv with behavior := .fails (.wrap "wrapped" .canceled) }).err =
      some (.wrap "wrapped" .canceled) := by
  refine ⟨?_, ?_, ?_⟩
  · have h := (getStep_timeout_semantics sampleVars ⟨123⟩
      { samplePlan with timeout := "bogus" } sampleEnv).1
      (by decide) (by decide)
    rw [h.2.1]
    decide
  · exact (getStep_timeout_semantics sampleVars ⟨123⟩
      { samplePlan with timeout := "1ms" }
      { sampleEnv with
          behavior := .fails (.wrap "wrapped" .deadlineExceeded) }).2.1
      1000000 (.wrap "wrapped" .deadlineExceeded) (by decide) rfl rfl rfl
  · exact ((getStep_timeout_semantics sampleVars ⟨123⟩
      { samplePlan with timeout := "1ms" }
      { sampleEnv with behavior := .fails (.wrap "wrapped" .canceled) }).2.2
      1000000 (.wrap "wrapped" .canceled) (by decide) rfl rfl rfl).2

/-- C4: when the resolved type is custom and declares a non-empty tag list,
those type tags are used for worker selection and image fetch regardless of
the plan's own tags; in every other case (type not custom, or type tags
unset) the plan's own tags are used — covering all four combinations of
plan tags set/unset and type tags set/unset. -/
theorem getStep_tag_selection (vars : StrMap) (md : StepMetadata)
    (plan : GetPlan) (env : GetEnv)
    (hto : plan.timeout = "" ∨ goParseDuration plan.timeout ≠ none)
    (hw : env.selectWorkerError = none) :
    (∀ t, lookupType plan.versionedResourceTypes plan.type = some t →
      t.resourceType.tags ≠ [] →
      (runGetStep vars md plan env).workerSpec.map WorkerSpec.tags =
        some t.resourceType.tags ∧
      (runGetStep vars md plan env).fetchImage.map
          (fun f => f.imageResource.tags) =
        some t.resourceType.tags) ∧
    (∀ t, lookupType plan.versionedResourceTypes plan.type = some t →
      t.resourceType.tags = [] →
      (runGetStep vars md plan env).workerSpec.map WorkerSpec.tags =
        some plan.tags ∧
      (runGetStep vars md plan env).fetchImage.map
          (fun f => f.imageResource.tags) =
        some plan.tags) ∧
    (lookupType plan.versionedResourceTypes plan.type = none →
      (runGetStep vars md plan env).workerSpec.map WorkerSpec.tags =
        some plan.tags) := by
  have hcond : ¬(plan.timeout ≠ "" ∧ goParseDuration plan.timeout = none) := by
    rcases hto with h | h
    · intro hc; exact hc.1 h
    · intro hc; exact h hc.2
  obtain ⟨hws, hfi⟩ := runGetStep_components vars md plan env hcond hw
  refine ⟨?_, ?_, ?_⟩
  · intro t ht htags
    rw [hws, hfi, ht]
    constructor
    · simp [resolveTags, ht, List.isEmpty_iff, htags]
    · simp [fetchImageCall, resolveTags, ht, List.isEmpty_iff, htags]
  · intro t ht htags
    rw [hws, hfi, ht]
    constructor
    · simp [resolveTags, ht, htags]
    · simp [fetchImageCall, resolveTags, ht, htags]
  · intro ht
    rw [hws]
    simp [resolveTags, ht]

/-- Witness for C4: with both plan tags and type tags set, the type tags
win for both the worker spec and the image fetch; with only plan tags set
(type not custom), the plan tags are used. -/
theorem getStep_tag_selection_witness :
    (runGetStep sampleVars ⟨123⟩
        { samplePlan with
            type := "some-custom-type"
            tags := ["plan", "tags"]
            versionedResourceTypes :=
              [{ sampleRT1 with resourceType :=
                  { sampleRT1.resourceType with tags := ["type", "tags"] } },
               sampleRT2] }
        sampleEnv).fetchImage.map (fun f => f.imageResource.tags) =
      some ["type", "tags"] ∧
    (runGetStep sampleVars ⟨123⟩ { samplePlan with tags := ["some", "tags"] }
        sampleEnv).workerSpec.map WorkerSpec.tags = some ["some", "tags"] := by
  refine ⟨?_, ?_⟩
  · exact ((getStep_tag_selection sampleVars ⟨123⟩
      { samplePlan with
          type := "some-custom-type"
          tags := ["plan", "tags"]
          versionedResourceTypes :=
            [{ sampleRT1 with resourceType :=
                { sampleRT1.resourceType with tags := ["type", "tags"] } },
             sampleRT2] }
      sampleEnv (Or.inl rfl) rfl).1
      { sampleRT1 with resourceType :=
          { sampleRT1.resourceType with tags := ["type", "tags"] } }
      (by decide) (by decide)).2
  · exact (getStep_tag_selection sampleVars ⟨123⟩
      { samplePlan with tags := ["some", "tags"] }
      sampleEnv (Or.inl rfl) rfl).2.2 (by decide)

/-- C5: the `ResourceType` in the WorkerSpec passed to
`Pool.FindOrSelectWorker` is the bottom-most non-custom type obtained by
recursively walking the resource-type chain when the plan's type names a
chain entry, and is the plan's type itself otherwise. -/
theorem getStep_workerSpec_resourceType (vars : StrMap) (md : StepMetadata)
    (plan : GetPlan) (env : GetEnv)
    (hto : plan.timeout = "" ∨ goParseDuration plan.timeout ≠ none)
    (hw : env.selectWorkerError = none) :
    (runGetStep vars md plan env).workerSpec.map WorkerSpec.resourceType =
      some (resolveBaseType plan.versionedResourceTypes plan.type) ∧
    (∀ t, lookupType plan.versionedResourceTypes plan.type = some t →
      resolveBaseType plan.versionedResourceTypes plan.type =
        baseTypeAux plan.versionedResourceTypes.length
          plan.versionedResourceTypes t.resourceType.type) ∧
    (lookupType plan.versionedResourceTypes plan.type = none →
      (runGetStep vars md plan env).workerSpec.map WorkerSpec.resourceType =
        some plan.type) := by
  have hcond : ¬(plan.timeout ≠ "" ∧ goParseDuration plan.timeout = none) := by
    rcases hto with h | h
    · intro hc; exact hc.1 h
    · intro hc; exact h hc.2
  obtain ⟨hws, _⟩ := runGetStep_components vars md plan env hcond hw
  refine ⟨?_, ?_, ?_⟩
  · rw [hws]; rfl
  · intro t ht
    simp [resolveBaseType, baseTypeAux, ht]
  · intro ht
    rw [hws]
    simp [resolveBaseType, baseTypeAux, ht]

/-- Witness for C5: at the test fixture the custom chain
`some-custom-type → another-custom-type → registry-image` resolves to
`registry-image`, and the non-custom `some-base-type` resolves to itself. -/
theorem getStep_workerSpec_resourceType_witness :
    (runGetStep sampleVars ⟨123⟩ { samplePlan with type := "some-custom-type" }
        sampleEnv).workerSpec.map WorkerSpec.resourceType =
      some "registry-image" ∧
    (runGetStep sampleVars ⟨123⟩ samplePlan sampleEnv).workerSpec.map
        WorkerSpec.resourceType = some "some-base-type" := by
  refine ⟨?_, ?_⟩
  · have h := (getStep_workerSpec_resourceType sampleVars ⟨123⟩
      { samplePlan with type := "some-custom-type" } sampleEnv
      (Or.inl rfl) rfl).1
    rw [h]
    decide
  · exact (getStep_workerSpec_resourceType sampleVars ⟨123⟩ samplePlan
      sampleEnv (Or.inl rfl) rfl).2.2 (by decide)

/-- C6: when the fetch subprocess exits 0 with a decoded payload, the
container's primary mount is registered under the plan's declared name, the
cache handle is stored as the plan's result, the Delegate's version-update
is called exactly once iff the plan names a concrete resource, a "finished"
event with exit status 0 and the payload is emitted, and the run returns
`(true, nil)`. -/
theorem getStep_success_path (vars : StrMap) (md : StepMetadata)
    (plan : GetPlan) (env : GetEnv) (payload : VersionResult)
    (hto : plan.timeout = "" ∨ goParseDuration plan.timeout ≠ none)
    (hw : env.selectWorkerError = none)
    (hb : env.behavior = .completes 0 payload) :
    (runGetStep vars md plan env).artifacts = [(plan.name, env.volume)] ∧
    (runGetStep vars md plan env).result = some (getCacheKey vars plan) ∧
    (runGetStep vars md plan env).updateVersions =
      (if plan.resource = "" then [] else [(plan.resource, payload)]) ∧
    ((runGetStep vars md plan env).updateVersions.length = 1 ↔
      plan.resource ≠ "") ∧
    (runGetStep vars md plan env).finished = [(0, payload)] ∧
    (runGetStep vars md plan env).ok = true ∧
    (runGetStep vars md plan env).err = none := by
  have hcond : ¬(plan.timeout ≠ "" ∧ goParseDuration plan.timeout = none) := by
    rcases hto with h | h
    · intro hc; exact hc.1 h
    · intro hc; exact h hc.2
  unfold runGetStep
  rw [if_neg hcond, hw, hb]
  by_cases hres : plan.resource = "" <;> simp [hres]

/-- Witness for C6: at the test fixture the artifact `get-volume` is
registered under `some-name`, the result is the cache handle, and the
version-update fires exactly once iff the plan names
`some-pipeline-resource` rather than the anonymous resource. -/
theorem getStep_success_path_witness :
    (runGetStep sampleVars ⟨123⟩
        { samplePlan with resource := "some-pipeline-resource" }
        sampleEnv).artifacts = [("some-name", "get-volume")] ∧
    (runGetStep sampleVars ⟨123⟩
        { samplePlan with resource := "some-pipeline-resource" }
        sampleEnv).updateVersions =
      [("some-pipeline-resource", samplePayload)] ∧
    (runGetStep sampleVars ⟨123⟩ samplePlan sampleEnv).updateVersions = [] ∧
    (runGetStep sampleVars ⟨123⟩ samplePlan sampleEnv).finished =
      [(0, samplePayload)] ∧
    (runGetStep sampleVars ⟨123⟩ samplePlan sampleEnv).ok = true ∧
    (runGetStep sampleVars ⟨123⟩ samplePlan sampleEnv).err = none := by
  have h₁ := getStep_success_path sampleVars ⟨123⟩
    { samplePlan with resource := "some-pipeline-resource" } sampleEnv
    samplePayload (Or.inl rfl) rfl rfl
  have h₂ := getStep_success_path sampleVars ⟨123⟩ samplePlan sampleEnv
    samplePayload (Or.inl rfl) rfl rfl
  refine ⟨h₁.1, ?_, ?_, h₂.2.2.2.2.1, h₂.2.2.2.2.2.1, h₂.2.2.2.2.2.2⟩
  · rw [h₁.2.2.1]; decide
  · rw [h₂.2.2.1]; decide

/-- C7: a non-zero subprocess exit emits "finished" with that status and a
zero-value payload, registers no artifact, persists no version, and returns
`(false, nil)`; any process error other than a step-local timeout makes the
run return `(false, err)` with that error and no "finished" event. -/
theorem getStep_failure_paths (vars : StrMap) (md : StepMetadata)
    (plan : GetPlan) (env : GetEnv)
    (hto : plan.timeout = "" ∨ goParseDuration plan.timeout ≠ none)
    (hw : env.selectWorkerError = none) :
    (∀ status payload, env.behavior = .completes status payload →
      status ≠ 0 →
      (runGetStep vars md plan env).finished =
        [(status, VersionResult.zero)] ∧
      (runGetStep vars md plan env).artifacts = [] ∧
      (runGetStep vars md plan env).updateVersions = [] ∧
      (runGetStep vars md plan env).result = none ∧
      (runGetStep vars md plan env).ok = false ∧
      (runGetStep vars md plan env).err = none) ∧
    (∀ e, env.behavior = .fails e → e.isDeadlineExceeded = false →
      (runGetStep vars md plan env).ok = false ∧
      (runGetStep vars md plan env).err = some e ∧
      (runGetStep vars md plan env).finished = []) := by
  have hcond : ¬(plan.timeout ≠ "" ∧ goParseDuration plan.timeout = none) := by
    rcases hto with h | h
    · intro hc; exact hc.1 h
    · intro hc; exact h hc.2
  refine ⟨?_, ?_⟩
  · intro status payload hb h0
    unfold runGetStep
    rw [if_neg hcond, hw, hb]
    simp [h0]
  · intro e hb hnd
    unfold runGetStep
    rw [if_neg hcond, hw, hb]
    simp [hnd]

/-- Witness for C7: exit status 1 gives "finished" with a zero payload and
`(false, nil)`; the script error `oh no` propagates as the step error with
no "finished" event. -/
theorem getStep_failure_paths_witness :
    (runGetStep sampleVars ⟨123⟩ samplePlan
        { sampleEnv with behavior := .completes 1 samplePayload }).finished =
      [(1, VersionResult.zero)] ∧
    (runGetStep sampleVars ⟨123⟩ samplePlan
        { sampleEnv with behavior := .completes 1 samplePayload }).ok =
      false ∧
    (runGetStep sampleVars ⟨123⟩ samplePlan
        { sampleEnv with behavior := .completes 1 samplePayload }).err =
      none ∧
    (runGetStep sampleVars ⟨123⟩ samplePlan
        { sampleEnv with behavior := .fails (.msg "oh no") }).err =
      some (.msg "oh no") ∧
    (runGetStep sampleVars ⟨123⟩ samplePlan
        { sampleEnv with behavior := .fails (.msg "oh no") }).finished =
      [] := by
  have h₁ := (getStep_failure_paths sampleVars ⟨123⟩ samplePlan
    { sampleEnv with behavior := .completes 1 samplePayload }
    (Or.inl rfl) rfl).1 1 samplePayload rfl (by decide)
  have h₂ := (getStep_failure_paths sampleVars ⟨123⟩ samplePlan
    { sampleEnv with behavior := .fails (.msg "oh no") }
    (Or.inl rfl) rfl).2 (.msg "oh no") rfl rfl
  exact ⟨h₁.1, h₁.2.2.2.2.1, h₁.2.2.2.2.2, h₂.2.1, h₂.2.2⟩

/-!
## Data model for the variable-load (LoadVar) step

The LoadVar step implementation is not among the provided sources (only its
test suite is), so the definitions below are modelled from the
specification, §4.2.
-/

/-- One fold step of `splitChar`: extend the current (leftmost) segment or
start a new one at a separator. -/
def splitCharAux (sep : Char) (c : Char) : List (List Char) → List (List Char)
  | [] => if c = sep then [[], []] else [[c]]
  | seg :: rest => if c = sep then [] :: seg :: rest else (c :: seg) :: rest

/-- Split a string at every occurrence of a separator character. -/
def splitChar (sep : Char) (s : String) : List String :=
  (s.toList.foldr (splitCharAux sep) [[]]).map (fun cs => String.mk cs)

/-- Go's `strings.TrimSpace`: strip leading and trailing whitespace. -/
def trimString (s : String) : String :=
  String.mk
    (((s.toList.dropWhile Char.isWhitespace).reverse.dropWhile
        Char.isWhitespace).reverse)

/-- Go's `filepath.Ext`: the suffix of the final path element beginning at
its final dot, or `""` when the final element has no dot. -/
def goFilepathExt (f : String) : String :=
  let base := f.toList.foldl (fun acc c => if c = '/' then [] else acc ++ [c]) []
  ((base.foldl
      (fun acc c => if c = '.' then some ['.'] else acc.map (fun e => e ++ [c]))
      (none : Option (List Char))).map
    (fun cs => String.mk cs)).getD ""

/-- A decoded variable value: a scalar string or a string-keyed mapping with
scalar leaves (spec §4.2 item 4's generic decoded value). -/
inductive VarValue where
  | str : String → VarValue
  | map : List (String × String) → VarValue
deriving Repr, DecidableEq

/-- Split a character list at its first colon, when one is present. -/
def splitFirstColon : List Char → Option (List Char × List Char)
  | [] => none
  | c :: rest =>
      if c = ':' then some ([], rest)
      else (splitFirstColon rest).map (fun p => (c :: p.1, p.2))

/-- Read one `key: value` line of a flat YAML mapping. -/
def yamlLineEntry (l : String) : Option (String × String) :=
  (splitFirstColon l.toList).map
    (fun p => (trimString (String.mk p.1), trimString (String.mk p.2)))

/-- Modelled from the spec: the external YAML decoder, restricted to the
generic values of §4.2 item 4 — a flat `key: value` mapping over the
non-blank lines, or a single scalar line; anything else is a decode
failure. -/
def decodeYaml (s : String) : Option VarValue :=
  let lines := (splitChar '\n' s).filter (fun l => trimString l ≠ "")
  if (lines.map yamlLineEntry).all Option.isSome then
    some (.map ((lines.map yamlLineEntry).filterMap id))
  else
    match lines with
    | [l] => some (.str (trimString l))
    | _ => none

/-- Read a JSON string literal (after trimming). -/
def jsonStringLit (s : String) : Option String :=
  match (trimString s).toList with
  | [] => none
  | c :: rest =>
      if c = '"' ∧ rest.getLast? = some '"' then some (String.mk rest.dropLast)
      else none

/-- Read one `"key": "value"` member of a flat JSON object. -/
def jsonEntry (s : String) : Option (String × String) := do
  let p ← splitFirstColon (trimString s).toList
  let key ← jsonStringLit (String.mk p.1)
  let value ← jsonStringLit (String.mk p.2)
  pure (key, value)

/-- Modelled from the spec: the external JSON decoder, restricted to the
generic values of §4.2 item 4 — a flat object of string members, or a
string scalar; anything else is a decode failure. -/
def decodeJson (s : String) : Option VarValue :=
  match (trimString s).toList with
  | '{' :: rest =>
      if rest.getLast? = some '}' then
        let pieces := splitChar ',' (String.mk rest.dropLast)
        if pieces.all (fun p => trimString p = "") then some (.map [])
        else
          let entries := pieces.map jsonEntry
          if entries.all Option.isSome then some (.map (entries.filterMap id))
          else none
      else none
  | _ => (jsonStringLit s).map .str

/-- The formats an explicit `Format` may take (spec §4.2 item 3). -/
def validFormats : List String := ["trim", "raw", "json", "yaml", "yml"]

/-- Modelled from the spec: format inference from the file's extension —
`.json` decodes as json, `.yml` and `.yaml` as yaml, anything else as trim
(spec §4.2 item 3). -/
def inferFormat (file : String) : String :=
  let ext := goFilepathExt file
  if ext = ".json" then "json"
  else if ext = ".yml" ∨ ext = ".yaml" then "yaml"
  else "trim"

/-- `atc.LoadVarPlan`: the compiler-produced description of one LoadVar
step; an absent format is the empty string. -/
structure LoadVarPlan where
  name : String
  file : String
  format : String
  reveal : Bool
deriving Repr, DecidableEq

/-- Modelled from the spec: format resolution — an explicit `Format` wins
when it is one of the supported formats and is a fatal
`invalid format <value>` error otherwise; an absent format is inferred from
the file's extension (spec §4.2 item 3). -/
def resolveFormat (plan : LoadVarPlan) : Except GoError String :=
  if plan.format ≠ "" then
    if validFormats.contains plan.format then .ok plan.format
    else .error (.msg ("invalid format " ++ plan.format))
  else
    .ok (inferFormat plan.file)

/-- Modelled from the spec: decoding per format — `trim` strips
leading/trailing whitespace, `raw` keeps the text unmodified, `json` and
`yaml`/`yml` run the generic decoder, whose failure is the fatal
`failed to parse <file> in format <format>: <cause>` error (spec §4.2
item 4). -/
def parseVarValue (format file content : String) : Except GoError VarValue :=
  match format with
  | "raw" => .ok (.str content)
  | "trim" => .ok (.str (trimString content))
  | "json" =>
      match decodeJson content with
      | some v => .ok v
      | none =>
          .error (.wrap ("failed to parse " ++ file ++ " in format " ++ format)
            (.msg "invalid document"))
  | _ =>
      match decodeYaml content with
      | some v => .ok v
      | none =>
          .error (.wrap ("failed to parse " ++ file ++ " in format " ++ format)
            (.msg "invalid document"))

/-- The build-local variable store together with the redaction side index
(interpolatable path → sensitive value). -/
structure BuildVariables where
  locals : List (String × VarValue)
  tracked : List (String × String)
deriving Repr, DecidableEq

/-- The redaction entries a stored value contributes: the scalar under the
plan's name, or each leaf of a mapping under `<name>.<key>` (spec §4.2
item 5). -/
def redactionEntries (name : String) : VarValue → List (String × String)
  | .str s => [(name, s)]
  | .map kvs => kvs.map (fun kv => (name ++ "." ++ kv.1, kv.2))

/-- The observable outcome of one LoadVar run: the resolved format (when
resolution succeeded), the variable store after the run, and the step's
`(ok, err)` outcome. -/
structure LoadVarOutcome where
  format : Option String
  vars : BuildVariables
  ok : Bool
  err : Option GoError
deriving Repr, DecidableEq

/-- Modelled from the spec: one run of the LoadVar step (spec §4.2, whose
implementation is not among the sources).  Split the plan's file reference
at its first separator into an artifact name and a relative path and look
the name up in the ArtifactRepository, absence being fatal (item 1; the
streamed bytes are the `content` argument, item 2); resolve the format
(item 3); decode per format (item 4); store the decoded value at local
scope under the plan's name and, unless `Reveal` is true, register the
value's redaction entries (item 5); reaching the store point always returns
`(true, nil)` (item 6). -/
def runLoadVar (artifacts : List String) (v0 : BuildVariables)
    (plan : LoadVarPlan) (content : String) : LoadVarOutcome :=
  let artifactName := (splitChar '/' plan.file).headD ""
  if artifacts.contains artifactName then
    match resolveFormat plan with
    | .error e => { format := none, vars := v0, ok := false, err := some e }
    | .ok format =>
        match parseVarValue format plan.file content with
        | .error e =>
            { format := some format, vars := v0, ok := false, err := some e }
        | .ok value =>
            { format := some format
              vars :=
                { locals := (plan.name, value) :: v0.locals
                  tracked :=
                    (if plan.reveal then [] else redactionEntries plan.name value)
                      ++ v0.tracked }
              ok := true
              err := none }
  else
    { format := none, vars := v0, ok := false,
      err := some (.msg ("unknown artifact source: " ++ artifactName)) }

/-- Helper: whenever the artifact is present and the format resolves, the
outcome records that format (shared by the LoadVar claims). -/
theorem runLoadVar_format_eq (artifacts : List String) (v0 : BuildVariables)
    (plan : LoadVarPlan) (content : String) (format : String)
    (ha : artifacts.contains ((splitChar '/' plan.file).headD "") = true)
    (hf : resolveFormat plan = .ok format) :
    (runLoadVar artifacts v0 plan content).format = some format := by
  unfold runLoadVar
  rw [if_pos ha, hf]
  cases hp : parseVarValue format plan.file content <;> simp [hp]

/-- C8: the decode format is the plan's explicit `Format` when set;
otherwise it is inferred from the file's extension (`.json` → json,
`.yml`/`.yaml` → yaml, anything else → trim); an explicit format outside
the supported set fails with `invalid format <value>`, and a json/yaml
document that fails to decode fails with an error whose message carries
`failed to parse <file> in format <format>`. -/
theorem loadVar_format_resolution (artifacts : List String)
    (v0 : BuildVariables) (plan : LoadVarPlan) (content : String)
    (ha : artifacts.contains ((splitChar '/' plan.file).headD "") = true) :
    (plan.format ∈ validFormats →
      (runLoadVar artifacts v0 plan content).format = some plan.format) ∧
    (plan.format = "" → goFilepathExt plan.file = ".json" →
      (runLoadVar artifacts v0 plan content).format = some "json") ∧
    (plan.format = "" →
      (goFilepathExt plan.file = ".yml" ∨ goFilepathExt plan.file = ".yaml") →
      (runLoadVar artifacts v0 plan content).format = some "yaml") ∧
    (plan.format = "" → goFilepathExt plan.file ≠ ".json" →
      goFilepathExt plan.file ≠ ".yml" → goFilepathExt plan.file ≠ ".yaml" →
      (runLoadVar artifacts v0 plan content).format = some "trim") ∧
    (plan.format ≠ "" → plan.format ∉ validFormats →
      (runLoadVar artifacts v0 plan content).ok = false ∧
      (runLoadVar artifacts v0 plan content).err =
        some (.msg ("invalid format " ++ plan.format))) ∧
    (∀ format, resolveFormat plan = .ok format →
      ((format = "json" ∧ decodeJson content = none) ∨
        ((format = "yaml" ∨ format = "yml") ∧ decodeYaml content = none)) →
      (runLoadVar artifacts v0 plan content).ok = false ∧
      (runLoadVar artifacts v0 plan content).err =
        some (.wrap ("failed to parse " ++ plan.file ++ " in format " ++ format)
          (.msg "invalid document"))) := by
  refine ⟨?_, ?_, ?_, ?_, ?_, ?_⟩
  · intro h
    have hne : plan.format ≠ "" := by
      intro h0; rw [h0] at h; exact absurd h (by decide)
    exact runLoadVar_format_eq artifacts v0 plan content plan.format ha
      (by simp [resolveFormat, hne, h])
  · intro h0 hext
    exact runLoadVar_format_eq artifacts v0 plan content "json" ha
      (by simp [resolveFormat, h0, inferFormat, hext])
  · intro h0 hext
    refine runLoadVar_format_eq artifacts v0 plan content "yaml" ha ?_
    rcases hext with h | h <;> simp [resolveFormat, h0, inferFormat, h]
  · intro h0 h1 h2 h3
    exact runLoadVar_format_eq artifacts v0 plan content "trim" ha
      (by simp [resolveFormat, h0, inferFormat, h1, h2, h3])
  · intro hne hcf
    unfold runLoadVar
    rw [if_pos ha]
    simp [resolveFormat, hne, hcf]
  · intro format hf hd
    unfold runLoadVar
    rw [if_pos ha, hf]
    dsimp only
    rcases hd with ⟨hfj, hdj⟩ | ⟨hfy, hdy⟩
    · subst hfj
      simp [parseVarValue, hdj]
    · rcases hfy with h | h <;> subst h <;> simp [parseVarValue, hdy]

/-- Witness for C8, at the test suite's inputs: explicit format `diff` is
the fatal `invalid format diff`; `a.json` infers json; the non-JSON
document `"  pv  \n\n"` under inferred json fails with the
`failed to parse` message. -/
theorem loadVar_format_resolution_witness :
    (runLoadVar ["some-resource"] ⟨[], []⟩
        ⟨"some-var", "some-resource/a.diff", "diff", false⟩ "  pv  \n\n").err =
      some (.msg "invalid format diff") ∧
    (runLoadVar ["some-resource"] ⟨[], []⟩
        ⟨"some-var", "some-resource/a.json", "", false⟩
        "\n\x7b\n  \"k1\": \"jv1\", \"k2\": \"jv2\"\n\x7d\n").format = some "json" ∧
    (runLoadVar ["some-resource"] ⟨[], []⟩
        ⟨"some-var", "some-resource/a.json", "", false⟩ "  pv  \n\n").err =
      some (.wrap "failed to parse some-resource/a.json in format json"
        (.msg "invalid document")) := by
  refine ⟨?_, ?_, ?_⟩
  · exact ((loadVar_format_resolution ["some-resource"] ⟨[], []⟩
      ⟨"some-var", "some-resource/a.diff", "diff", false⟩ "  pv  \n\n"
      (by decide)).2.2.2.2.1 (by decide) (by decide)).2
  · exact (loadVar_format_resolution ["some-resource"] ⟨[], []⟩
      ⟨"some-var", "some-resource/a.json", "", false⟩
      "\n\x7b\n  \"k1\": \"jv1\", \"k2\": \"jv2\"\n\x7d\n"
      (by decide)).2.1 rfl (by decide)
  · have h := ((loadVar_format_resolution ["some-resource"] ⟨[], []⟩
      ⟨"some-var", "some-resource/a.json", "", false⟩ "  pv  \n\n"
      (by decide)).2.2.2.2.2 "json" rfl
      (Or.inl ⟨rfl, by decide⟩)).2
    rw [h]
    decide

/-- C9: on reaching the store point the decoded value is stored at local
scope under the plan's name, and each redaction entry of the value (the
scalar under the name, or each leaf of a mapping under `<name>.<key>`) is
present in the redaction index iff `Reveal` is false; when `Reveal` is true
the index stays empty. -/
theorem loadVar_store_and_redaction (artifacts : List String)
    (plan : LoadVarPlan) (content format : String) (value : VarValue)
    (ha : artifacts.contains ((splitChar '/' plan.file).headD "") = true)
    (hf : resolveFormat plan = .ok format)
    (hp : parseVarValue format plan.file content = .ok value) :
    (runLoadVar artifacts ⟨[], []⟩ plan content).vars.locals.lookup plan.name =
      some value ∧
    (runLoadVar artifacts ⟨[], []⟩ plan content).ok = true ∧
    (runLoadVar artifacts ⟨[], []⟩ plan content).err = none ∧
    (∀ e, e ∈ redactionEntries plan.name value →
      (e ∈ (runLoadVar artifacts ⟨[], []⟩ plan content).vars.tracked ↔
        plan.reveal = false)) ∧
    (plan.reveal = true →
      (runLoadVar artifacts ⟨[], []⟩ plan content).vars.tracked = []) := by
  unfold runLoadVar
  rw [if_pos ha, hf]
  dsimp only
  rw [hp]
  refine ⟨by simp, rfl, rfl, ?_, ?_⟩
  · intro e he
    cases hr : plan.reveal <;> simp [hr, he]
  · intro hr
    simp [hr]

/-- Witness for C9, at the test suite's inputs: the trimmed scalar `pv` is
stored under `some-var` and tracked for redaction when `Reveal` is unset,
while with `Reveal` true the index is empty; a yaml mapping tracks its leaf
`some-var.k1`. -/
theorem loadVar_store_and_redaction_witness :
    (runLoadVar ["some-resource"] ⟨[], []⟩
        ⟨"some-var", "some-resource/a.diff", "", false⟩
        "  pv  \n\n").vars.locals.lookup "some-var" = some (.str "pv") ∧
    ("some-var", "pv") ∈
      (runLoadVar ["some-resource"] ⟨[], []⟩
        ⟨"some-var", "some-resource/a.diff", "", false⟩
        "  pv  \n\n").vars.tracked ∧
    (runLoadVar ["some-resource"] ⟨[], []⟩
        ⟨"some-var", "some-resource/a.diff", "", true⟩
        "  pv  \n\n").vars.tracked = [] ∧
    ("some-var.k1", "yv1") ∈
      (runLoadVar ["some-resource"] ⟨[], []⟩
        ⟨"some-var", "some-resource/a.yaml", "", false⟩
        "\nk1: yv1\nk2: yv2\n").vars.tracked := by
  refine ⟨?_, ?_, ?_, ?_⟩
  · exact (loadVar_store_and_redaction ["some-resource"]
      ⟨"some-var", "some-resource/a.diff", "", false⟩ "  pv  \n\n" "trim"
      (.str "pv") (by decide) rfl rfl).1
  · exact ((loadVar_store_and_redaction ["some-resource"]
      ⟨"some-var", "some-resource/a.diff", "", false⟩ "  pv  \n\n" "trim"
      (.str "pv") (by decide) rfl rfl).2.2.2.1
      ("some-var", "pv") (by decide)).mpr rfl
  · exact (loadVar_store_and_redaction ["some-resource"]
      ⟨"some-var", "some-resource/a.diff", "", true⟩ "  pv  \n\n" "trim"
      (.str "pv") (by decide) rfl rfl).2.2.2.2 rfl
  · exact ((loadVar_store_and_redaction ["some-resource"]
      ⟨"some-var", "some-resource/a.yaml", "", false⟩ "\nk1: yv1\nk2: yv2\n"
      "yaml" (.map [("k1", "yv1"), ("k2", "yv2")]) (by decide) rfl
      rfl).2.2.2.1 ("some-var.k1", "yv1") (by decide)).mpr rfl
